import Mathlib

/-!
Verification of the Krypteringsvalv vault core (src/core/crypto.py,
src/core/container.py, src/core/vfs.py) against its natural-language
specification.

Shallow embedding conventions:
* Python `bytes` / `bytearray` values are `List Nat` (each element a byte value).
* Python exceptions are modelled by the `PyErr` type; a function that can raise
  returns `Except PyErr _`.  Mutating methods return `(Except PyErr Unit) × State`
  so that the state after a raised exception is explicit.
* External libraries (`zlib`, `json`, the `cryptography` AEAD/KDF primitives,
  `mimetypes`) are not code of this repository; they are abstracted as the
  fields of an `ExtLib` record, and theorems assume only the round-trip
  properties the libraries document.  Randomness (`os.urandom`) is passed in as
  an explicit argument (the salt / nonce drawn by the caller).
-/

/-- Python exception classes relevant to the vault core.  `containerError`,
`cryptoError` and `vfsError` are the repository's own exception types
(container.py:20, crypto.py:15, vfs.py:15); the rest model built-in / library
exceptions that the code can let escape (`TypeError`, `zlib.error`,
`ValueError` -- which subsumes `UnicodeDecodeError` and `json.JSONDecodeError`
-- and `struct.error`). -/
inductive PyErr where
  | containerError (msg : String)
  | cryptoError (msg : String)
  | vfsError (msg : String)
  | typeError (msg : String)
  | zlibError (msg : String)
  | valueError (msg : String)
  | structError (msg : String)
  deriving Repr, DecidableEq

instance {ε α : Type} [DecidableEq ε] [DecidableEq α] : DecidableEq (Except ε α) :=
  fun x y =>
    match x, y with
    | .ok a, .ok b => if h : a = b then .isTrue (by simp [h]) else .isFalse (by simp [h])
    | .error a, .error b =>
        if h : a = b then .isTrue (by simp [h]) else .isFalse (by simp [h])
    | .ok _, .error _ => .isFalse (by simp)
    | .error _, .ok _ => .isFalse (by simp)

/-- Is the given result a raised `ContainerError`? -/
def isContainerErrorR {α : Type} : Except PyErr α → Bool
  | .error (.containerError _) => true
  | _ => false

/-- Is the given result a raised `VfsError`? -/
def isVfsErrorR {α : Type} : Except PyErr α → Bool
  | .error (.vfsError _) => true
  | _ => false

/-- Is the given result a normal (non-raising) return? -/
def isOkR {α : Type} : Except PyErr α → Bool
  | .ok _ => true
  | .error _ => false

/-- Is this exception a `ContainerError`? -/
def PyErr.isContainerError : PyErr → Bool
  | .containerError _ => true
  | _ => false

/-- `struct.pack(">H", v)` (crypto.py:135): big-endian 16-bit pack;
`struct.error` when the value does not fit. -/
def pack_uint16 (v : Nat) : Except PyErr (List Nat) :=
  if v < 65536 then .ok [v / 256 % 256, v % 256]
  else .error (.structError "'H' format requires 0 <= number <= 65535")

/-- `struct.pack(">I", v)` (crypto.py:140): big-endian 32-bit pack;
`struct.error` when the value does not fit. -/
def pack_uint32 (v : Nat) : Except PyErr (List Nat) :=
  if v < 4294967296 then
    .ok [v / 16777216 % 256, v / 65536 % 256, v / 256 % 256, v % 256]
  else .error (.structError "'I' format requires 0 <= number <= 4294967295")

/-- `struct.unpack(">H", data)[0]` (crypto.py:145) on an exactly-2-byte slice. -/
def unpack_uint16 (data : List Nat) : Nat :=
  data.getD 0 0 * 256 + data.getD 1 0

/-- `struct.unpack(">I", data)[0]` (crypto.py:150) on an exactly-4-byte slice. -/
def unpack_uint32 (data : List Nat) : Nat :=
  ((data.getD 0 0 * 256 + data.getD 1 0) * 256 + data.getD 2 0) * 256 + data.getD 3 0

/-- The big-endian bytes produced by a successful `pack_uint32`. -/
def lenBytesOf (v : Nat) : List Nat :=
  [v / 16777216 % 256, v / 65536 % 256, v / 256 % 256, v % 256]

/-- The behaviour of the external libraries the vault core calls into, none of
which are code of this repository: `zlib` compression, `json`
encoding/decoding of the metadata dictionary (whose Python type is abstracted
as `Meta`, together with the UTF-8 encode/decode of the JSON text), the
Argon2id KDF and the AES-256-GCM AEAD from the `cryptography` package.
Failure of `zlib.decompress` / metadata decoding is `none`; the vault code
decides which exception that surfaces as. -/
structure ExtLib (Meta : Type) where
  zlibCompress : List Nat → List Nat
  zlibDecompress : List Nat → Option (List Nat)
  jsonDumps : Meta → List Nat
  jsonLoads : List Nat → Option Meta
  argon2Derive : String → List Nat → List Nat
  aesgcmEncrypt : (key nonce data aad : List Nat) → List Nat
  aesgcmDecrypt : (key nonce ct aad : List Nat) → Option (List Nat)

namespace CryptoManager

/-- `CryptoManager.SALT_SIZE` (crypto.py:27). -/
def SALT_SIZE : Nat := 16

/-- `CryptoManager.NONCE_SIZE` (crypto.py:28). -/
def NONCE_SIZE : Nat := 12

/-- `CryptoManager.KEY_SIZE` (crypto.py:29). -/
def KEY_SIZE : Nat := 32

/-- `CryptoManager.derive_key` (crypto.py:42-65): raises `CryptoError` on a
wrong-length salt, otherwise applies the Argon2id KDF to the password and
salt. -/
def derive_key {Meta : Type} (ext : ExtLib Meta) (password : String)
    (salt : List Nat) : Except PyErr (List Nat) :=
  if salt.length ≠ SALT_SIZE then
    .error (.cryptoError "Salt must be 16 bytes")
  else
    .ok (ext.argon2Derive password salt)

/-- `CryptoManager.encrypt` (crypto.py:67-86): checks the key length, then
encrypts under a fresh nonce (`generate_nonce()`, crypto.py:38; the random
draw is the explicit `nonce` argument here) and returns `(nonce, ciphertext)`. -/
def encrypt {Meta : Type} (ext : ExtLib Meta) (nonce data key aad : List Nat) :
    Except PyErr (List Nat × List Nat) :=
  if key.length ≠ KEY_SIZE then
    .error (.cryptoError "Key must be 32 bytes")
  else
    .ok (nonce, ext.aesgcmEncrypt key nonce data aad)

/-- `CryptoManager.decrypt` (crypto.py:88-113): checks key and nonce lengths,
then AEAD-decrypts; any decryption failure is wrapped into `CryptoError`. -/
def decrypt {Meta : Type} (ext : ExtLib Meta) (nonce ciphertext key aad : List Nat) :
    Except PyErr (List Nat) :=
  if key.length ≠ KEY_SIZE then
    .error (.cryptoError "Key must be 32 bytes")
  else if nonce.length ≠ NONCE_SIZE then
    .error (.cryptoError "Nonce must be 12 bytes")
  else
    match ext.aesgcmDecrypt key nonce ciphertext aad with
    | some plaintext => .ok plaintext
    | none => .error (.cryptoError "Decryption failed")

/-- `CryptoManager.verify_password` (crypto.py:115-131): derives a key and
compares; the `try`/`except CryptoError` converts any `CryptoError` from the
derivation (in particular a wrong-length salt) into a `False` return. -/
def verify_password {Meta : Type} (ext : ExtLib Meta) (password : String)
    (salt expected_key : List Nat) : Except PyErr Bool :=
  match derive_key ext password salt with
  | .ok derived => .ok (derived == expected_key)
  | .error (.cryptoError _) => .ok false
  | .error e => .error e

end CryptoManager

namespace VaultContainer

/-- `VaultContainer.MAGIC_BYTES = b"PYVAULT2"` (container.py:28), as byte values. -/
def MAGIC_BYTES : List Nat := [80, 89, 86, 65, 85, 76, 84, 50]

/-- `VaultContainer.VERSION` (container.py:29). -/
def VERSION : Nat := 1

/-- `VaultContainer.HEADER_SIZE` (container.py:30). -/
def HEADER_SIZE : Nat := 38

/-- The externally visible state of a `VaultContainer` object together with
the on-disk vault file it owns: `fileBytes` is the current content of the
vault file, `handleOpen` models `self._file_handle is not None`, and
`lockAcquired` records whether an OS-level lock is held on the file
(`self._lock`; container.py:36 initialises it to `None` and no code path ever
acquires one). -/
structure ContState where
  fileBytes : List Nat
  handleOpen : Bool
  lockAcquired : Bool
  deriving Repr, DecidableEq

/-- A fresh `VaultContainer(path)` (container.py:32-36) over a file currently
holding `fileBytes` (empty if absent): no handle, no lock. -/
def init (fileBytes : List Nat) : ContState :=
  { fileBytes := fileBytes, handleOpen := false, lockAcquired := false }

/-- `VaultContainer.open` (container.py:45-72), named `openVault` because
`open` is a Lean keyword.  It opens the file (creating it when absent; the
file's bytes are unchanged either way) and wraps any OS failure — modelled by
the `ioFail` outcome of the `open()` call — in `ContainerError`.  The
`portalocker` / `msvcrt` locking block (container.py:60-67) is commented out
in the source ("Temporarily disable file locking"), so no lock is ever
acquired: `lockAcquired` keeps its previous value (`false` in every reachable
state). -/
def openVault (ioFail : Bool) (st : ContState) : (Except PyErr Unit) × ContState :=
  if ioFail then
    (.error (.containerError "Failed to open vault file: [Errno 13] Permission denied"), st)
  else
    (.ok (), { st with handleOpen := true })

/-- `VaultContainer._parse_header` (container.py:226-247): checks the exact
38-byte length, the magic bytes and the version, then returns the 16-byte salt
(bytes 10..25) and the rounds field (bytes 26..29).  Within this function the
`struct.unpack` calls always receive exact-length slices, so only
`ContainerError` can be raised. -/
def parse_header (header : List Nat) : Except PyErr (List Nat × Nat) :=
  if header.length ≠ HEADER_SIZE then
    .error (.containerError "Invalid header size")
  else if header.take 8 ≠ MAGIC_BYTES then
    .error (.containerError "Invalid vault file: wrong magic bytes")
  else if unpack_uint16 ((header.drop 8).take 2) ≠ VERSION then
    .error (.containerError "Unsupported vault version")
  else
    .ok ((header.drop 10).take 16, unpack_uint32 ((header.drop 26).take 4))

/-- `VaultContainer._serialize_payload` (container.py:249-265): JSON-encodes
the metadata to UTF-8 bytes, prefixes its 32-bit big-endian length, appends
the file data, and compresses the whole payload.  `struct.pack` raises
`struct.error` when the metadata is 2^32 bytes or longer. -/
def serialize_payload {Meta : Type} (ext : ExtLib Meta) (metadata : Meta)
    (file_data : List Nat) : Except PyErr (List Nat) :=
  let metadata_bytes := ext.jsonDumps metadata
  match pack_uint32 metadata_bytes.length with
  | .error e => .error e
  | .ok lenBytes => .ok (ext.zlibCompress (lenBytes ++ metadata_bytes ++ file_data))

/-- `VaultContainer._deserialize_payload` (container.py:267-288): reads the
4-byte metadata length, checks it against the payload size (`ContainerError`
on failure), then UTF-8-decodes and JSON-parses the metadata — a failure there
raises `UnicodeDecodeError` / `json.JSONDecodeError` (both `ValueError`s),
which this method does not catch — and returns the remaining bytes as the
blob. -/
def deserialize_payload {Meta : Type} (ext : ExtLib Meta) (payload : List Nat) :
    Except PyErr (Meta × List Nat) :=
  if payload.length < 4 then
    .error (.containerError "Invalid payload: too small")
  else
    let metadata_len := unpack_uint32 (payload.take 4)
    if payload.length < 4 + metadata_len then
      .error (.containerError "Invalid payload: metadata size mismatch")
    else
      match ext.jsonLoads ((payload.drop 4).take metadata_len) with
      | none => .error (.valueError "metadata is not valid UTF-8 JSON")
      | some metadata => .ok (metadata, payload.drop (4 + metadata_len))

/-- Possible outcomes of the OS-level write sequence inside
`VaultContainer._write_atomic`: either every byte is written and the file is
truncated, or the write/flush/fsync/truncate sequence fails after `k` bytes of
`data` have reached the file. -/
inductive WriteOutcome where
  | success
  | failAfter (k : Nat) (msg : String)
  deriving Repr, DecidableEq

/-- `VaultContainer._write_atomic` (container.py:290-311).  Despite its name
and docstring ("Write data to file atomically"), the body prints "skip atomic
replace" and writes **directly into the open vault file** (seek 0, write,
flush, fsync, truncate): no temporary file is created and no rename happens.
On success the file holds exactly `data`; if the OS sequence fails after `k`
bytes, the file is left with those `k` new bytes spliced over the old content
and a `ContainerError` is raised. -/
def write_atomic (data : List Nat) (outcome : WriteOutcome) (st : ContState) :
    (Except PyErr Unit) × ContState :=
  if ¬ st.handleOpen then
    (.error (.containerError "File not opened"), st)
  else
    match outcome with
    | .success => (.ok (), { st with fileBytes := data })
    | .failAfter k msg =>
        (.error (.containerError ("Failed to write vault file: " ++ msg)),
          { st with fileBytes := data.take k ++ st.fileBytes.drop k })

/-- `VaultContainer.create_new` (container.py:83-128).  After the handle check
and `generate_salt()` (the random draw is the `salt` argument), the very next
statement is `self.crypto.derive_key(password, salt, fast_mode=fast_mode)`
(container.py:102) — but `CryptoManager.derive_key` (crypto.py:42) has no
`fast_mode` parameter, so Python raises `TypeError` at the call and nothing
further (serialization, encryption, `_build_header` — which would itself hit
`AttributeError` on the non-existent `self.crypto.BCRYPT_ROUNDS`,
container.py:210 — or the write) ever executes. -/
def create_new (password : String) (fast_mode : Bool) (salt : List Nat)
    (st : ContState) : (Except PyErr Unit) × ContState :=
  if ¬ st.handleOpen then
    (.error (.containerError "File not opened"), st)
  else
    (.error (.typeError
      "derive_key() got an unexpected keyword argument: fast_mode"), st)

/-- `VaultContainer.load` (container.py:130-169): reads the whole file, checks
the minimum size, parses the header, derives the key from the salt recovered
from the header, decrypts with the header as AAD (wrapping `CryptoError` into
`ContainerError`), then `zlib.decompress`-es **outside any try block** — a
decompression failure escapes as `zlib.error`, not `ContainerError` — and
deserializes the payload. -/
def load {Meta : Type} (ext : ExtLib Meta) (password : String) (st : ContState) :
    Except PyErr (Meta × List Nat) :=
  if ¬ st.handleOpen then
    .error (.containerError "File not opened")
  else
    let file_data := st.fileBytes
    if file_data.length < HEADER_SIZE + CryptoManager.NONCE_SIZE then
      .error (.containerError "Invalid vault file: too small")
    else
      let header := file_data.take HEADER_SIZE
      match parse_header header with
      | .error e => .error e
      | .ok (salt, _rounds) =>
        match CryptoManager.derive_key ext password salt with
        | .error e => .error e
        | .ok key =>
          let nonce := (file_data.drop HEADER_SIZE).take CryptoManager.NONCE_SIZE
          let ciphertext := file_data.drop (HEADER_SIZE + CryptoManager.NONCE_SIZE)
          match CryptoManager.decrypt ext nonce ciphertext key header with
          | .error (.cryptoError m) =>
              .error (.containerError ("Failed to decrypt vault: " ++ m))
          | .error e => .error e
          | .ok payload =>
            match ext.zlibDecompress payload with
            | none => .error (.zlibError "Error -3 while decompressing data")
            | some decompressed => deserialize_payload ext decompressed

/-- `VaultContainer.save` (container.py:171-198): re-reads the first 38 bytes
of the existing file to recover the header (and thus the salt), derives the
key, serializes and compresses the payload, encrypts it with a fresh nonce
(the explicit `nonce` argument) using the header as AAD, and hands
`header ++ nonce ++ ciphertext` to `_write_atomic`. -/
def save {Meta : Type} (ext : ExtLib Meta) (password : String) (metadata : Meta)
    (file_data nonce : List Nat) (outcome : WriteOutcome) (st : ContState) :
    (Except PyErr Unit) × ContState :=
  if ¬ st.handleOpen then
    (.error (.containerError "File not opened"), st)
  else
    let header := st.fileBytes.take HEADER_SIZE
    match parse_header header with
    | .error e => (.error e, st)
    | .ok (salt, _rounds) =>
      match CryptoManager.derive_key ext password salt with
      | .error e => (.error e, st)
      | .ok key =>
        match serialize_payload ext metadata file_data with
        | .error e => (.error e, st)
        | .ok payload =>
          match CryptoManager.encrypt ext nonce payload key header with
          | .error e => (.error e, st)
          | .ok (n, ciphertext) => write_atomic (header ++ n ++ ciphertext) outcome st

end VaultContainer

/-- A `pathlib.PurePosixPath`: an absolute-or-relative flag plus the kept
segments.  `pathlib` drops empty and `"."` segments at construction and keeps
`".."` segments. -/
structure PPath where
  isAbs : Bool
  segs : List String
  deriving Repr, DecidableEq, BEq

/-- Split a character list on `'/'`. -/
def splitOnSlash : List Char → List (List Char)
  | [] => [[]]
  | c :: rest =>
      if c = '/' then [] :: splitOnSlash rest
      else
        match splitOnSlash rest with
        | [] => [[c]]
        | h :: t => (c :: h) :: t

/-- `pathlib.PurePosixPath(s)`: absolute iff the string starts with `/`;
segments are the non-empty, non-`"."` slash-separated parts. -/
def PPath.parse (s : String) : PPath :=
  { isAbs := s.toList.head? = some '/',
    segs := ((splitOnSlash s.toList).map (fun cs => String.mk cs)).filter
      (fun t => t ≠ "" ∧ t ≠ ".") }

/-- `pathlib`'s `/` operator: an absolute right operand discards the left
operand entirely. -/
def PPath.join (a b : PPath) : PPath :=
  if b.isAbs then b else { isAbs := a.isAbs, segs := a.segs ++ b.segs }

/-- `Path.parent`: drop the last segment (the parent of a one-segment relative
path is `.`, of the root is the root). -/
def PPath.parent (p : PPath) : PPath :=
  { isAbs := p.isAbs, segs := p.segs.dropLast }

/-- Lexical `..` elimination used by `Path.resolve` (no symlinks in the
model): `..` pops the last kept segment, and at the root it is dropped. -/
def resolveSegs (l : List String) : List String :=
  l.foldl (fun acc s => if s = ".." then acc.dropLast else acc ++ [s]) []

/-- `Path.resolve()` on a filesystem without symlinks: make the path absolute
against the current working directory `cwd` (itself absolute), then eliminate
`..` lexically. -/
def PPath.resolve (cwd p : PPath) : PPath :=
  { isAbs := true,
    segs := resolveSegs (if p.isAbs then p.segs else cwd.segs ++ p.segs) }

/-- `Path.parents` of a resolved (absolute, `..`-free) path: every proper
prefix, down to the root. -/
def PPath.parentsList (p : PPath) : List PPath :=
  (List.range p.segs.length).map (fun k => { isAbs := p.isAbs, segs := p.segs.take k })

namespace VaultContainer

/-- `VaultContainer.validate_extraction_path` (container.py:313-333): resolves
`extract_dir / file_path` and `extract_dir` and accepts iff the former is the
latter or lies strictly below it.  Because `/` discards its left operand when
`file_path` is absolute, an absolute `file_path` is resolved on its own,
ignoring `extract_dir`. -/
def validate_extraction_path (cwd : PPath) (file_path : String)
    (extract_dir : PPath) : Bool :=
  let target_path := PPath.resolve cwd (PPath.join extract_dir (PPath.parse file_path))
  let extract_dir_resolved := PPath.resolve cwd extract_dir
  (PPath.parentsList target_path).contains extract_dir_resolved
    || target_path == extract_dir_resolved

end VaultContainer

/-- One `FileEntry` of the vault metadata: the value stored under a virtual
path in `metadata["files"]` (vfs.py:80-86). -/
structure FileEntry where
  offset : Nat
  size : Nat
  created : String
  modified : String
  mime_type : String
  deriving Repr, DecidableEq

/-- `self.file_data` of a `VirtualFileSystem`: either a mutable `bytearray`
(as initialised in `__init__`, vfs.py:26) or an immutable `bytes` object (as
assigned by `load`, vfs.py:32, since `VaultContainer.load` returns the `bytes`
slice produced by `_deserialize_payload`).  `bytes` has no `extend` and does
not support item deletion, which matters to `add_file` / `remove_file`. -/
inductive Blob where
  | bytearray (data : List Nat)
  | bytes (data : List Nat)
  deriving Repr, DecidableEq

/-- The raw byte content of the blob, whichever Python type holds it. -/
def Blob.data : Blob → List Nat
  | .bytearray d => d
  | .bytes d => d

namespace VirtualFileSystem

/-- The in-memory state of a `VirtualFileSystem`: `files` is the
insertion-ordered `metadata["files"]` dictionary as an association list with
distinct keys, `blob` is `self.file_data`, `dirty` is `self._dirty`.  (The
metadata's top-level `"timestamp"` field plays no role in any claim.) -/
structure VfsState where
  files : List (String × FileEntry)
  blob : Blob
  dirty : Bool
  deriving Repr, DecidableEq

/-- Membership test `vault_path in self.metadata["files"]`. -/
def hasKey (files : List (String × FileEntry)) (k : String) : Bool :=
  files.any (fun p => p.1 == k)

/-- Dictionary lookup `self.metadata["files"][vault_path]`. -/
def lookupEntry (files : List (String × FileEntry)) (k : String) : Option FileEntry :=
  (files.find? (fun p => p.1 == k)).map (fun p => p.2)

/-- Strip leading and trailing `'/'` characters (`str.strip("/")`). -/
def stripSlashes (l : List Char) : List Char :=
  ((l.dropWhile (fun c => c = '/')).reverse.dropWhile (fun c => c = '/')).reverse

/-- `VirtualFileSystem._normalize_path` (vfs.py:259-276): replace backslashes
with forward slashes, strip leading/trailing slashes, then — since the
stripped string can no longer start with `/` — prefix a single `/` when
non-empty. -/
def normalize_path (path : String) : String :=
  let replaced := path.toList.map (fun c => if c = '\\' then '/' else c)
  let stripped := stripSlashes replaced
  if stripped.isEmpty then "" else String.mk ('/' :: stripped)

/-- A vault with `create_empty()` metadata (vfs.py:278-284) and the
`__init__` `bytearray()` blob: the state of an empty vault. -/
def emptyVfs : VfsState :=
  { files := [], blob := .bytearray [], dirty := false }

/-- `VirtualFileSystem.add_file` (vfs.py:48-91) in the case where the source
file exists and its bytes are `content` (the existence/`is_file` checks on
`sourceName`, vfs.py:58-62, precede any state change and are modelled by
supplying the readable file's content; `guessMime` models
`mimetypes.guess_type` and `now` the `time.strftime` timestamp).  The
normalized path must not already exist (`VfsError`); on a `bytes` blob the
`self.file_data.extend(content)` call raises `AttributeError`, caught by the
`except Exception` and re-raised as `VfsError`, before any field changes;
otherwise the content is appended at offset `len(self.file_data)`, the entry
inserted, and the dirty flag set. -/
def add_file (guessMime : String → Option String) (sourceName : String)
    (content : List Nat) (vault_path : String) (now : String) (st : VfsState) :
    (Except PyErr Unit) × VfsState :=
  let vp := normalize_path vault_path
  if hasKey st.files vp then
    (.error (.vfsError ("File already exists in vault: " ++ vp)), st)
  else
    match st.blob with
    | .bytes _ =>
        (.error (.vfsError
          "Failed to add file: 'bytes' object has no attribute 'extend'"), st)
    | .bytearray d =>
        let entry : FileEntry :=
          { offset := d.length, size := content.length, created := now,
            modified := now,
            mime_type := (guessMime sourceName).getD "application/octet-stream" }
        (.ok (), { files := st.files ++ [(vp, entry)],
                   blob := .bytearray (d ++ content), dirty := true })

/-- `VirtualFileSystem.remove_file` (vfs.py:130-162): missing path is a
`VfsError`; on a `bytes` blob the `del self.file_data[offset:offset+size]`
raises `TypeError`, caught and re-raised as `VfsError`, before any field
changes; otherwise the byte range is excised from the blob, every entry whose
offset is strictly greater than the removed offset is shifted down by `size`,
the entry is deleted, and the dirty flag set. -/
def remove_file (vault_path : String) (st : VfsState) :
    (Except PyErr Unit) × VfsState :=
  let vp := normalize_path vault_path
  match lookupEntry st.files vp with
  | none => (.error (.vfsError ("File not found in vault: " ++ vp)), st)
  | some e =>
    match st.blob with
    | .bytes _ =>
        (.error (.vfsError
          "Failed to remove file: 'bytes' object doesn't support item deletion"), st)
    | .bytearray d =>
        let d' := d.take e.offset ++ d.drop (e.offset + e.size)
        let files' := (st.files.map (fun p =>
            if e.offset < p.2.offset then
              (p.1, { p.2 with offset := p.2.offset - e.size })
            else p)).filter (fun p => p.1 ≠ vp)
        (.ok (), { files := files', blob := .bytearray d', dirty := true })

/-- `VirtualFileSystem.extract_file` (vfs.py:93-128): normalizes the virtual
path, requires it to exist, validates `(vault_path, dest.parent)` through
`VaultContainer.validate_extraction_path`, and only then slices
`self.file_data[offset:offset+size]` and writes it to the destination (the
returned byte list is what gets written; directory creation is an external
filesystem effect). -/
def extract_file (cwd : PPath) (vault_path : String) (extract_path : PPath)
    (st : VfsState) : Except PyErr (List Nat) :=
  let vp := normalize_path vault_path
  match lookupEntry st.files vp with
  | none => .error (.vfsError ("File not found in vault: " ++ vp))
  | some e =>
    if ¬ VaultContainer.validate_extraction_path cwd vp (PPath.parent extract_path) then
      .error (.vfsError "Unsafe extraction path")
    else
      .ok ((st.blob.data.drop e.offset).take e.size)

/-- `VirtualFileSystem.get_total_size` (vfs.py:237-244): the sum of every
entry's `size`. -/
def get_total_size (st : VfsState) : Nat :=
  (st.files.map (fun p => p.2.size)).sum

/-- `VirtualFileSystem.load` (vfs.py:29-35) applied to the outcome of
`self.container.load(password)`: on success the decoded metadata and the
`bytes` blob replace the state and the dirty flag clears; a `ContainerError`
is wrapped into `VfsError`; any other exception (e.g. `zlib.error`) escapes
unchanged. -/
def load (containerResult : Except PyErr (List (String × FileEntry) × List Nat))
    (st : VfsState) : (Except PyErr Unit) × VfsState :=
  match containerResult with
  | .ok (files, data) =>
      (.ok (), { files := files, blob := .bytes data, dirty := false })
  | .error (.containerError m) =>
      (.error (.vfsError ("Failed to load vault: " ++ m)), st)
  | .error e => (.error e, st)

/-- One mutating call on the VFS: `add_file` (with the source file's bytes,
the clock reading, and the virtual path) or `remove_file`. -/
inductive VfsOp where
  | add (sourceName : String) (content : List Nat) (vaultPath now : String)
  | remove (vaultPath : String)

/-- The state after one call; a call that raises leaves the state as the
returned post-state (identical to the pre-state on every error path). -/
def applyOp (guessMime : String → Option String) (st : VfsState) : VfsOp → VfsState
  | .add sourceName content vaultPath now =>
      (add_file guessMime sourceName content vaultPath now st).2
  | .remove vaultPath => (remove_file vaultPath st).2

/-- The state after a sequence of `add_file`/`remove_file` calls. -/
def runOps (guessMime : String → Option String) (st : VfsState)
    (ops : List VfsOp) : VfsState :=
  ops.foldl (applyOp guessMime) st

/-- Running total of entry sizes in list order. -/
def sumSizes : List (String × FileEntry) → Nat
  | [] => 0
  | p :: rest => p.2.size + sumSizes rest

/-- Layout check: scanning the entries in dictionary (insertion) order, each
entry's offset equals `start` plus the sizes of the preceding entries — i.e.
the ranges tile the blob contiguously from `start` with no gaps. -/
def layoutFrom (start : Nat) : List (String × FileEntry) → Bool
  | [] => true
  | (_, e) :: rest => (e.offset == start) && layoutFrom (start + e.size) rest

/-- Two entries' byte ranges `[offset, offset+size)` do not overlap. -/
def disjointEntries (a b : FileEntry) : Bool :=
  decide (a.offset + a.size ≤ b.offset) || decide (b.offset + b.size ≤ a.offset)

/-- Every pair of distinct entries is range-disjoint. -/
def pairwiseDisjoint : List (String × FileEntry) → Bool
  | [] => true
  | p :: rest => rest.all (fun q => disjointEntries p.2 q.2) && pairwiseDisjoint rest

/-- The entry list is non-decreasing in offset (so the dictionary order *is*
an order sorted by offset). -/
def sortedByOffset : List (String × FileEntry) → Bool
  | [] => true
  | p :: rest => rest.all (fun q => decide (p.2.offset ≤ q.2.offset)) && sortedByOffset rest

/-- Every entry's range fits inside the blob. -/
def boundsOk (files : List (String × FileEntry)) (blobLen : Nat) : Bool :=
  files.all (fun p => decide (p.2.offset + p.2.size ≤ blobLen))

/-- The internal invariant carried through every mutation: the entries tile
the blob contiguously from offset 0, their sizes sum to the blob length, and
the dictionary keys are distinct. -/
def Inv (st : VfsState) : Prop :=
  layoutFrom 0 st.files = true
  ∧ sumSizes st.files = st.blob.data.length
  ∧ (st.files.map Prod.fst).Nodup

/-- The vault state reached by the witness's first `add_file` call. -/
def stC8 : VfsState :=
  { files := [("/docs/r.txt",
       { offset := 0, size := 2, created := "t", modified := "t",
         mime_type := "application/octet-stream" })],
    blob := .bytearray [1, 2], dirty := true }

end VirtualFileSystem

/-- A concrete interpretation of the external libraries used to instantiate
theorems at computable inputs: compression and AEAD are identities (which
satisfy the round-trip laws), the metadata type is `Unit` encoding to the
empty byte string, and the KDF returns a 32-byte zero key. -/
def extTriv : ExtLib Unit :=
  { zlibCompress := fun p => p
    zlibDecompress := fun p => some p
    jsonDumps := fun _ => []
    jsonLoads := fun _ => some ()
    argon2Derive := fun _ _ => List.replicate 32 0
    aesgcmEncrypt := fun _ _ data _ => data
    aesgcmDecrypt := fun _ _ ct _ => some ct }

/-- A syntactically valid 38-byte header: magic, version 1, a zero salt and
zero KDF fields. -/
def headerTriv : List Nat :=
  VaultContainer.MAGIC_BYTES ++ [0, 1] ++ List.replicate 28 0

/-- An interpretation whose AEAD decryption always fails authentication. -/
def extAesNone : ExtLib Unit := { extTriv with aesgcmDecrypt := fun _ _ _ _ => none }

/-- An interpretation whose `zlib.decompress` always raises `zlib.error`. -/
def extZlibNone : ExtLib Unit := { extTriv with zlibDecompress := fun _ => none }

/-- An interpretation whose metadata decoding always fails. -/
def extJsonNone : ExtLib Unit := { extTriv with jsonLoads := fun _ => none }

/-- A 50-byte vault file: a valid header followed by a 12-byte nonce and an
empty ciphertext. -/
def stFile50 : VaultContainer.ContState :=
  VaultContainer.ContState.mk (headerTriv ++ List.replicate 12 0) true false

/-- The concrete vault used for C5: one file `/docs/a.txt` occupying the
whole 3-byte blob. -/
def stC5 : VirtualFileSystem.VfsState :=
  { files := [("/docs/a.txt", ⟨0, 3, "t", "t", "text/plain"⟩)],
    blob := .bytes [10, 20, 30], dirty := false }

/-! ## Helper lemmas -/

theorem take_append_eq_left {α : Type} (l₁ l₂ : List α) (n : Nat)
    (h : l₁.length = n) : (l₁ ++ l₂).take n = l₁ := by
  subst h
  simp

theorem drop_append_eq_right {α : Type} (l₁ l₂ : List α) (n : Nat)
    (h : l₁.length = n) : (l₁ ++ l₂).drop n = l₂ := by
  subst h
  simp

theorem pack_uint32_ok {v : Nat} (h : v < 4294967296) :
    pack_uint32 v = .ok [v / 16777216 % 256, v / 65536 % 256, v / 256 % 256, v % 256] := by
  simp [pack_uint32, h]

theorem unpack_uint32_pack (v : Nat) (h : v < 4294967296) :
    unpack_uint32 [v / 16777216 % 256, v / 65536 % 256, v / 256 % 256, v % 256] = v := by
  simp only [unpack_uint32, List.getD]
  simp only [List.get?_eq_getElem?, List.getElem?_cons_zero, List.getElem?_cons_succ,
    Option.getD_some]
  omega

theorem parse_header_ok {h s : List Nat} {r : Nat}
    (hp : VaultContainer.parse_header h = .ok (s, r)) :
    h.length = 38 ∧ s = (h.drop 10).take 16 ∧ s.length = 16 := by
  unfold VaultContainer.parse_header at hp
  split at hp
  · exact absurd hp (by simp)
  · split at hp
    · exact absurd hp (by simp)
    · split at hp
      · exact absurd hp (by simp)
      · rename_i h38 _ _
        simp only [VaultContainer.HEADER_SIZE, ne_eq, Decidable.not_not] at h38
        injection hp with hp'
        injection hp' with h1 h2
        refine ⟨h38, h1.symm, ?_⟩
        rw [← h1]
        simp only [List.length_take, List.length_drop, h38]
        omega

theorem lenBytesOf_length (v : Nat) : (lenBytesOf v).length = 4 := rfl

theorem save_success_eq {Meta : Type} (ext : ExtLib Meta) (password : String)
    (metadata : Meta) (file_data nonce salt : List Nat) (rounds : Nat)
    (st : VaultContainer.ContState)
    (hopen : st.handleOpen = true)
    (hparse : VaultContainer.parse_header (st.fileBytes.take 38) = .ok (salt, rounds))
    (hsalt16 : salt.length = 16)
    (hkey : (ext.argon2Derive password salt).length = 32)
    (hmeta : (ext.jsonDumps metadata).length < 4294967296) :
    VaultContainer.save ext password metadata file_data nonce .success st
      = (.ok (), { st with fileBytes :=
          (st.fileBytes.take 38 ++ nonce ++
            ext.aesgcmEncrypt (ext.argon2Derive password salt) nonce
              (ext.zlibCompress (lenBytesOf (ext.jsonDumps metadata).length
                ++ ext.jsonDumps metadata ++ file_data))
              (st.fileBytes.take 38)) }) := by
  unfold VaultContainer.save
  rw [if_neg (by simp [hopen])]
  simp only [VaultContainer.HEADER_SIZE]
  rw [hparse]
  simp only [CryptoManager.derive_key, CryptoManager.SALT_SIZE, hsalt16]
  simp only [VaultContainer.serialize_payload, pack_uint32_ok hmeta]
  simp only [CryptoManager.encrypt, CryptoManager.KEY_SIZE, hkey]
  simp only [VaultContainer.write_atomic, hopen]
  simp [lenBytesOf, hkey]

theorem unpack_uint32_lenBytesOf (v : Nat) (h : v < 4294967296) :
    unpack_uint32 (lenBytesOf v) = v :=
  unpack_uint32_pack v h

theorem deserialize_serialized {Meta : Type} (ext : ExtLib Meta) (metadata : Meta)
    (file_data : List Nat)
    (hmeta : (ext.jsonDumps metadata).length < 4294967296)
    (hjson : ext.jsonLoads (ext.jsonDumps metadata) = some metadata) :
    VaultContainer.deserialize_payload ext
      (lenBytesOf (ext.jsonDumps metadata).length ++ ext.jsonDumps metadata ++ file_data)
      = .ok (metadata, file_data) := by
  set mb := ext.jsonDumps metadata with hmb
  have hlb : (lenBytesOf mb.length).length = 4 := rfl
  have hlen : (lenBytesOf mb.length ++ mb ++ file_data).length
      = 4 + mb.length + file_data.length := by
    simp [List.length_append]
    omega
  have htk4 : (lenBytesOf mb.length ++ mb ++ file_data).take 4 = lenBytesOf mb.length := by
    rw [List.append_assoc]
    exact take_append_eq_left _ _ 4 hlb
  have hdk : ((lenBytesOf mb.length ++ mb ++ file_data).drop 4).take mb.length = mb := by
    rw [List.append_assoc, drop_append_eq_right _ _ 4 hlb]
    exact take_append_eq_left _ _ _ rfl
  have hdd : (lenBytesOf mb.length ++ mb ++ file_data).drop (4 + mb.length) = file_data := by
    refine drop_append_eq_right _ _ _ ?_
    simp [List.length_append, lenBytesOf_length]
  unfold VaultContainer.deserialize_payload
  rw [if_neg (by omega)]
  rw [htk4, unpack_uint32_lenBytesOf mb.length hmeta]
  rw [if_neg (by omega)]
  rw [hdk, hjson, hdd]

/-- **C1.** Round-trip of persistence: on an opened container whose on-disk
file carries a parseable header, for every password, metadata value and blob,
`load(password)` after `save(password, metadata, blob)` returns the same
metadata and the byte-for-byte identical blob.  The hypotheses are exactly the
documented behaviour of the external libraries (Argon2id returns a 32-byte
key, the fresh nonce is 12 random bytes, `zlib` and `json` round-trip, and
AES-GCM decryption inverts encryption under the same key, nonce and AAD) plus
the `struct.pack` bound on the metadata size. -/
theorem save_load_roundtrip {Meta : Type} (ext : ExtLib Meta) (password : String)
    (metadata : Meta) (file_data nonce salt : List Nat) (rounds : Nat)
    (st : VaultContainer.ContState)
    (hopen : st.handleOpen = true)
    (hparse : VaultContainer.parse_header (st.fileBytes.take 38) = .ok (salt, rounds))
    (hkey : (ext.argon2Derive password salt).length = 32)
    (hnonce : nonce.length = 12)
    (hmeta : (ext.jsonDumps metadata).length < 4294967296)
    (hzlib : ∀ p, ext.zlibDecompress (ext.zlibCompress p) = some p)
    (hjson : ext.jsonLoads (ext.jsonDumps metadata) = some metadata)
    (haes : ∀ key n d aad,
      ext.aesgcmDecrypt key n (ext.aesgcmEncrypt key n d aad) aad = some d) :
    (VaultContainer.save ext password metadata file_data nonce .success st).1 = .ok ()
    ∧ VaultContainer.load ext password
        (VaultContainer.save ext password metadata file_data nonce .success st).2
      = .ok (metadata, file_data) := by
  obtain ⟨h38, -, hsalt16⟩ := parse_header_ok hparse
  rw [save_success_eq ext password metadata file_data nonce salt rounds st hopen hparse
    hsalt16 hkey hmeta]
  refine ⟨rfl, ?_⟩
  set mb := ext.jsonDumps metadata with hmb
  set header := st.fileBytes.take 38 with hh
  set key := ext.argon2Derive password salt with hk
  set payload := ext.zlibCompress (lenBytesOf mb.length ++ mb ++ file_data) with hpl
  set ct := ext.aesgcmEncrypt key nonce payload header with hct
  have hlen : (header ++ nonce ++ ct).length = 50 + ct.length := by
    simp [List.length_append, h38, hnonce]
    omega
  have htake : (header ++ nonce ++ ct).take 38 = header := by
    rw [List.append_assoc]
    exact take_append_eq_left _ _ 38 h38
  have hdropn : ((header ++ nonce ++ ct).drop 38).take 12 = nonce := by
    rw [List.append_assoc, drop_append_eq_right _ _ 38 h38]
    exact take_append_eq_left _ _ 12 hnonce
  have hdropc : (header ++ nonce ++ ct).drop 50 = ct := by
    refine drop_append_eq_right _ _ 50 ?_
    simp [List.length_append, h38, hnonce]
  unfold VaultContainer.load
  rw [if_neg (by simp [hopen])]
  simp only [VaultContainer.HEADER_SIZE, CryptoManager.NONCE_SIZE]
  rw [if_neg (by rw [hlen]; omega)]
  rw [htake, hparse, hdropn, hdropc, hct]
  simp [CryptoManager.derive_key, CryptoManager.SALT_SIZE, hsalt16,
    CryptoManager.decrypt, CryptoManager.KEY_SIZE, CryptoManager.NONCE_SIZE, hkey, hnonce,
    haes, hpl, hzlib]
  rw [← List.append_assoc]
  exact deserialize_serialized ext metadata file_data hmeta hjson

/-- Witness for C1: the round-trip evaluated on a concrete vault (valid
header, key/nonce/metadata instantiated through `extTriv`). -/
theorem save_load_roundtrip_witness :
    (VaultContainer.save extTriv "pw" () [1, 2, 3] (List.replicate 12 7) .success
        (VaultContainer.ContState.mk headerTriv true false)).1 = .ok ()
    ∧ VaultContainer.load extTriv "pw"
        (VaultContainer.save extTriv "pw" () [1, 2, 3] (List.replicate 12 7) .success
          (VaultContainer.ContState.mk headerTriv true false)).2
      = .ok ((), [1, 2, 3]) :=
  save_load_roundtrip extTriv "pw" () [1, 2, 3] (List.replicate 12 7)
    (List.replicate 16 0) 0 (VaultContainer.ContState.mk headerTriv true false)
    rfl (by decide) (by decide) (by decide) (by decide)
    (fun _ => rfl) rfl (fun _ _ _ _ => rfl)

/-- **C2** (code bug).  `_write_atomic` does not use a temporary file and
rename: it overwrites the vault file in place, so a failure mid-write leaves
the file corrupted instead of untouched.  Concretely, writing `[2, 2]` over a
vault holding `[1, 1, 1, 1]` with the OS failing after 1 byte raises
`ContainerError` but leaves the file as `[2, 1, 1, 1]`, which differs from the
original bytes. -/
theorem write_atomic_overwrites_in_place :
    (VaultContainer.write_atomic [2, 2] (.failAfter 1 "No space left on device")
        (VaultContainer.ContState.mk [1, 1, 1, 1] true false)).2.fileBytes = [2, 1, 1, 1]
    ∧ isContainerErrorR (VaultContainer.write_atomic [2, 2]
        (.failAfter 1 "No space left on device")
        (VaultContainer.ContState.mk [1, 1, 1, 1] true false)).1 = true
    ∧ [2, 1, 1, 1] ≠ [1, 1, 1, 1] := by
  decide

/-- **C4** (code bug).  `create_new` can never complete: when the handle is
open, the call `self.crypto.derive_key(password, salt, fast_mode=fast_mode)`
(container.py:102) raises `TypeError` because `CryptoManager.derive_key`
(crypto.py:42) takes no `fast_mode` argument; with the handle closed it raises
`ContainerError`.  Either way the call fails and leaves the state unchanged. -/
theorem create_new_always_fails (password : String) (fast_mode : Bool)
    (salt : List Nat) (st : VaultContainer.ContState) :
    isOkR (VaultContainer.create_new password fast_mode salt st).1 = false
    ∧ (VaultContainer.create_new password fast_mode salt st).2 = st
    ∧ (VaultContainer.create_new password fast_mode salt
        { st with handleOpen := true }).1
      = .error (.typeError "derive_key() got an unexpected keyword argument: fast_mode") := by
  unfold VaultContainer.create_new
  refine ⟨?_, ?_, by simp⟩ <;> split <;> simp [isOkR]

/-- **C7** (code bug).  `VaultContainer.open` succeeds on an accessible path
but never acquires any lock: the `portalocker`/`msvcrt` locking block
(container.py:60-67) is commented out, so after a successful `open()` the lock
field is exactly what it was before — `false` for a freshly constructed
container. -/
theorem open_acquires_no_lock (fileBytes : List Nat) (st : VaultContainer.ContState) :
    (VaultContainer.openVault false (VaultContainer.init fileBytes)).1 = .ok ()
    ∧ (VaultContainer.openVault false (VaultContainer.init fileBytes)).2.handleOpen = true
    ∧ (VaultContainer.openVault false (VaultContainer.init fileBytes)).2.lockAcquired = false
    ∧ (VaultContainer.openVault false st).2.lockAcquired = st.lockAcquired := by
  simp [VaultContainer.openVault, VaultContainer.init]

/-- **C9** (amended).  `verify_password` always returns a boolean and never
raises: it returns `True` exactly when the salt is well-formed (16 bytes) and
the derived key equals the expected key; a mismatch — and equally a malformed
salt, whose `CryptoError` is caught by the `except` clause — yields `False`
rather than an exception. -/
theorem verify_password_spec {Meta : Type} (ext : ExtLib Meta) (password : String)
    (salt expected_key : List Nat) :
    (∃ b, CryptoManager.verify_password ext password salt expected_key = .ok b)
    ∧ (CryptoManager.verify_password ext password salt expected_key = .ok true
        ↔ salt.length = 16 ∧ ext.argon2Derive password salt = expected_key) := by
  by_cases h : salt.length = 16
  · refine ⟨⟨ext.argon2Derive password salt == expected_key, ?_⟩, ?_⟩ <;>
      simp [CryptoManager.verify_password, CryptoManager.derive_key,
        CryptoManager.SALT_SIZE, h]
  · refine ⟨⟨false, ?_⟩, ?_⟩ <;>
      simp [CryptoManager.verify_password, CryptoManager.derive_key,
        CryptoManager.SALT_SIZE, h]

/-- Counterexample to C9 as stated: a malformed (15-byte) salt does not make
`verify_password` raise — the `CryptoError` from `derive_key` is caught and
the call returns `False`. -/
theorem verify_password_malformed_salt_returns_false :
    CryptoManager.verify_password extTriv "pw" (List.replicate 15 0) (List.replicate 32 0)
      = .ok false := by
  decide

theorem parse_header_error_kind {h : List Nat} {e : PyErr}
    (hp : VaultContainer.parse_header h = .error e) : e.isContainerError = true := by
  unfold VaultContainer.parse_header at hp
  split at hp
  · injection hp with hp'
    subst hp'
    rfl
  · split at hp
    · injection hp with hp'
      subst hp'
      rfl
    · split at hp
      · injection hp with hp'
        subst hp'
        rfl
      · exact absurd hp (by simp)

/-- Counterexample to C3 as stated: a vault file whose header parses and
whose ciphertext decrypts, but whose decrypted payload fails decompression,
makes `load` raise `zlib.error` — not `ContainerError` — because the
`zlib.decompress` call (container.py:168) sits outside every `try` block. -/
theorem load_decompress_error_not_containerError :
    VaultContainer.load extZlibNone "pw" stFile50
      = .error (.zlibError "Error -3 while decompressing data")
    ∧ PyErr.isContainerError (.zlibError "Error -3 while decompressing data") = false := by
  decide

/-- **C3** (amended).  `load` raises `ContainerError` for a too-small file,
for a magic/version/header-size mismatch, for an authenticated-decryption
failure, and for a metadata length-check failure inside
`_deserialize_payload`; but a decompression failure propagates as
`zlib.error` and a metadata-decoding failure as a `ValueError`, neither
wrapped into `ContainerError`.  No partial result is ever returned: every
failure is a raised exception. -/
theorem load_error_classification {Meta : Type} (ext : ExtLib Meta)
    (password : String) (st : VaultContainer.ContState)
    (hopen : st.handleOpen = true) :
    (st.fileBytes.length < 50 →
      VaultContainer.load ext password st
        = .error (.containerError "Invalid vault file: too small"))
    ∧ (∀ e, 50 ≤ st.fileBytes.length →
        VaultContainer.parse_header (st.fileBytes.take 38) = .error e →
        VaultContainer.load ext password st = .error e ∧ e.isContainerError = true)
    ∧ (∀ salt rounds m, 50 ≤ st.fileBytes.length →
        VaultContainer.parse_header (st.fileBytes.take 38) = .ok (salt, rounds) →
        CryptoManager.decrypt ext ((st.fileBytes.drop 38).take 12) (st.fileBytes.drop 50)
          (ext.argon2Derive password salt) (st.fileBytes.take 38) = .error (.cryptoError m) →
        VaultContainer.load ext password st
          = .error (.containerError ("Failed to decrypt vault: " ++ m)))
    ∧ (∀ salt rounds payload, 50 ≤ st.fileBytes.length →
        VaultContainer.parse_header (st.fileBytes.take 38) = .ok (salt, rounds) →
        CryptoManager.decrypt ext ((st.fileBytes.drop 38).take 12) (st.fileBytes.drop 50)
          (ext.argon2Derive password salt) (st.fileBytes.take 38) = .ok payload →
        ext.zlibDecompress payload = none →
        VaultContainer.load ext password st
          = .error (.zlibError "Error -3 while decompressing data"))
    ∧ (∀ salt rounds payload d, 50 ≤ st.fileBytes.length →
        VaultContainer.parse_header (st.fileBytes.take 38) = .ok (salt, rounds) →
        CryptoManager.decrypt ext ((st.fileBytes.drop 38).take 12) (st.fileBytes.drop 50)
          (ext.argon2Derive password salt) (st.fileBytes.take 38) = .ok payload →
        ext.zlibDecompress payload = some d →
        VaultContainer.load ext password st = VaultContainer.deserialize_payload ext d)
    ∧ (∀ d : List Nat, d.length < 4 →
        VaultContainer.deserialize_payload ext d
          = .error (.containerError "Invalid payload: too small"))
    ∧ (∀ d : List Nat, 4 ≤ d.length → d.length < 4 + unpack_uint32 (d.take 4) →
        VaultContainer.deserialize_payload ext d
          = .error (.containerError "Invalid payload: metadata size mismatch"))
    ∧ (∀ d : List Nat, 4 ≤ d.length → 4 + unpack_uint32 (d.take 4) ≤ d.length →
        ext.jsonLoads ((d.drop 4).take (unpack_uint32 (d.take 4))) = none →
        VaultContainer.deserialize_payload ext d
          = .error (.valueError "metadata is not valid UTF-8 JSON")) := by
  refine ⟨?_, ?_, ?_, ?_, ?_, ?_, ?_, ?_⟩
  · intro h1
    unfold VaultContainer.load
    rw [if_neg (by simp [hopen])]
    simp only [VaultContainer.HEADER_SIZE, CryptoManager.NONCE_SIZE]
    rw [if_pos (by omega)]
  · intro e h50 hpe
    refine ⟨?_, parse_header_error_kind hpe⟩
    unfold VaultContainer.load
    rw [if_neg (by simp [hopen])]
    simp only [VaultContainer.HEADER_SIZE, CryptoManager.NONCE_SIZE]
    rw [if_neg (by omega)]
    rw [hpe]
  · intro salt rounds m h50 hpe hdec
    obtain ⟨-, -, hsalt16⟩ := parse_header_ok hpe
    unfold VaultContainer.load
    rw [if_neg (by simp [hopen])]
    simp only [VaultContainer.HEADER_SIZE, CryptoManager.NONCE_SIZE]
    rw [if_neg (by omega)]
    rw [hpe]
    simp only [CryptoManager.derive_key, CryptoManager.SALT_SIZE, hsalt16]
    norm_num
    rw [hdec]
  · intro salt rounds payload h50 hpe hdec hz
    obtain ⟨-, -, hsalt16⟩ := parse_header_ok hpe
    unfold VaultContainer.load
    rw [if_neg (by simp [hopen])]
    simp only [VaultContainer.HEADER_SIZE, CryptoManager.NONCE_SIZE]
    rw [if_neg (by omega)]
    rw [hpe]
    simp only [CryptoManager.derive_key, CryptoManager.SALT_SIZE, hsalt16]
    norm_num
    rw [hdec]
    simp only [hz]
  · intro salt rounds payload d h50 hpe hdec hz
    obtain ⟨-, -, hsalt16⟩ := parse_header_ok hpe
    unfold VaultContainer.load
    rw [if_neg (by simp [hopen])]
    simp only [VaultContainer.HEADER_SIZE, CryptoManager.NONCE_SIZE]
    rw [if_neg (by omega)]
    rw [hpe]
    simp only [CryptoManager.derive_key, CryptoManager.SALT_SIZE, hsalt16]
    norm_num
    rw [hdec]
    simp only [hz]
  · intro d h4
    unfold VaultContainer.deserialize_payload
    rw [if_pos h4]
  · intro d h4 hlt
    unfold VaultContainer.deserialize_payload
    rw [if_neg (by omega)]
    rw [if_pos hlt]
  · intro d h4 hle hj
    unfold VaultContainer.deserialize_payload
    rw [if_neg (by omega)]
    rw [if_neg (by omega)]
    rw [hj]

/-- Witness for the amended C3: each clause evaluated at a concrete vault
file / payload. -/
theorem load_error_classification_witness :
    VaultContainer.load extTriv "pw" (VaultContainer.ContState.mk [] true false)
      = .error (.containerError "Invalid vault file: too small")
    ∧ VaultContainer.load extTriv "pw"
        (VaultContainer.ContState.mk (List.replicate 50 9) true false)
      = .error (.containerError "Invalid vault file: wrong magic bytes")
    ∧ VaultContainer.load extAesNone "pw" stFile50
      = .error (.containerError "Failed to decrypt vault: Decryption failed")
    ∧ VaultContainer.load extZlibNone "pw" stFile50
      = .error (.zlibError "Error -3 while decompressing data")
    ∧ VaultContainer.load extTriv "pw" stFile50
      = VaultContainer.deserialize_payload extTriv []
    ∧ VaultContainer.deserialize_payload extTriv [1, 2]
      = .error (.containerError "Invalid payload: too small")
    ∧ VaultContainer.deserialize_payload extTriv [0, 0, 0, 9, 1]
      = .error (.containerError "Invalid payload: metadata size mismatch")
    ∧ VaultContainer.deserialize_payload extJsonNone [0, 0, 0, 0]
      = .error (.valueError "metadata is not valid UTF-8 JSON") := by
  refine ⟨?_, ?_, ?_, ?_, ?_, ?_, ?_, ?_⟩
  · exact (load_error_classification extTriv "pw" _ rfl).1 (by decide)
  · exact ((load_error_classification extTriv "pw" _ rfl).2.1 _ (by decide) (by decide)).1
  · exact (load_error_classification extAesNone "pw" stFile50 rfl).2.2.1
      (List.replicate 16 0) 0 "Decryption failed" (by decide) (by decide) (by decide)
  · exact (load_error_classification extZlibNone "pw" stFile50 rfl).2.2.2.1
      (List.replicate 16 0) 0 [] (by decide) (by decide) (by decide) (by decide)
  · exact (load_error_classification extTriv "pw" stFile50 rfl).2.2.2.2.1
      (List.replicate 16 0) 0 [] [] (by decide) (by decide) (by decide) (by decide)
  · exact (load_error_classification extTriv "pw" stFile50 rfl).2.2.2.2.2.1 [1, 2] (by decide)
  · exact (load_error_classification extTriv "pw" stFile50 rfl).2.2.2.2.2.2.1
      [0, 0, 0, 9, 1] (by decide) (by decide)
  · exact (load_error_classification extJsonNone "pw" stFile50 rfl).2.2.2.2.2.2.2
      [0, 0, 0, 0] (by decide) (by decide) (by decide)

/-- **C5** (code bug).  Extracting `/docs/a.txt` to `/tmp/out/a.txt` — a
destination squarely inside the target directory `/tmp/out`, as the third
conjunct verifies — raises `VfsError` instead of writing the blob slice.
`extract_file` passes the *normalized vault path* (which always starts with
`/`) to `validate_extraction_path`, and `pathlib`'s `/` operator discards the
extraction directory for an absolute right operand, so the check compares
`/docs/a.txt` against `/tmp/out` and rejects. -/
theorem extract_file_rejects_safe_destination :
    isVfsErrorR (VirtualFileSystem.extract_file ⟨true, ["w"]⟩ "/docs/a.txt"
      ⟨true, ["tmp", "out", "a.txt"]⟩ stC5) = true
    ∧ VaultContainer.validate_extraction_path ⟨true, ["w"]⟩ "/docs/a.txt"
        (PPath.parent ⟨true, ["tmp", "out", "a.txt"]⟩) = false
    ∧ (PPath.parentsList (PPath.resolve ⟨true, ["w"]⟩
          ⟨true, ["tmp", "out", "a.txt"]⟩)).contains
        (PPath.resolve ⟨true, ["w"]⟩ (PPath.parent ⟨true, ["tmp", "out", "a.txt"]⟩))
      = true
    ∧ VirtualFileSystem.lookupEntry stC5.files
        (VirtualFileSystem.normalize_path "/docs/a.txt")
      = some ⟨0, 3, "t", "t", "text/plain"⟩ := by
  decide

namespace VirtualFileSystem

theorem sumSizes_eq_mapSum : ∀ l : List (String × FileEntry),
    (l.map (fun p => p.2.size)).sum = sumSizes l
  | [] => rfl
  | p :: rest => by simp [sumSizes, List.sum_cons, sumSizes_eq_mapSum rest]

theorem layoutFrom_append (start : Nat) (a b : List (String × FileEntry)) :
    layoutFrom start (a ++ b)
      = (layoutFrom start a && layoutFrom (start + sumSizes a) b) := by
  induction a generalizing start with
  | nil => simp [layoutFrom, sumSizes]
  | cons p rest ih =>
      simp [layoutFrom, sumSizes, ih, Bool.and_assoc, Nat.add_assoc]

theorem layout_bounds {l : List (String × FileEntry)} {start : Nat}
    (h : layoutFrom start l = true) :
    ∀ p ∈ l, start ≤ p.2.offset ∧ p.2.offset + p.2.size ≤ start + sumSizes l := by
  induction l generalizing start with
  | nil => intro p hp; cases hp
  | cons q rest ih =>
      simp only [layoutFrom, Bool.and_eq_true, beq_iff_eq] at h
      obtain ⟨hq, hrest⟩ := h
      intro p hp
      rcases List.mem_cons.mp hp with rfl | hp'
      · simp only [sumSizes]
        omega
      · obtain ⟨h1, h2⟩ := ih hrest p hp'
        simp only [sumSizes]
        omega

theorem layoutFrom_snoc (start : Nat) (l : List (String × FileEntry))
    (k : String) (e : FileEntry) (h : layoutFrom start l = true)
    (he : e.offset = start + sumSizes l) :
    layoutFrom start (l ++ [(k, e)]) = true := by
  rw [layoutFrom_append]
  simp [h, layoutFrom, he]

end VirtualFileSystem

namespace VirtualFileSystem

theorem layout_shift (o s : Nat) :
    ∀ (l : List (String × FileEntry)) (c : Nat),
      layoutFrom (o + s + c) l = true →
      layoutFrom (o + c) (l.map (fun p =>
        if o < p.2.offset then (p.1, { p.2 with offset := p.2.offset - s }) else p))
        = true := by
  intro l
  induction l with
  | nil => intro c _; rfl
  | cons q rest ih =>
      obtain ⟨qk, qe⟩ := q
      intro c h
      simp only [layoutFrom, Bool.and_eq_true, beq_iff_eq] at h
      obtain ⟨hq, hrest⟩ := h
      have hrest' : layoutFrom (o + s + (c + qe.size)) rest = true := by
        have harith : o + s + (c + qe.size) = o + s + c + qe.size := by omega
        rw [harith]
        exact hrest
      have htail := ih (c + qe.size) hrest'
      have harith2 : o + c + qe.size = o + (c + qe.size) := by omega
      by_cases ho : o < qe.offset
      · simp only [List.map_cons]
        rw [if_pos ho]
        simp only [layoutFrom, Bool.and_eq_true, beq_iff_eq]
        exact ⟨by omega, by rw [harith2]; exact htail⟩
      · simp only [List.map_cons]
        rw [if_neg ho]
        simp only [layoutFrom, Bool.and_eq_true, beq_iff_eq]
        exact ⟨by omega, by rw [harith2]; exact htail⟩

theorem find?_decomp {α : Type} (q : α → Bool) :
    ∀ (l : List α) (a : α), l.find? q = some a →
      ∃ l1 l2, l = l1 ++ a :: l2 ∧ ∀ x ∈ l1, q x = false := by
  intro l
  induction l with
  | nil => intro a h; cases h
  | cons x rest ih =>
      intro a h
      by_cases hq : q x = true
      · rw [List.find?_cons_of_pos _ hq] at h
        injection h with h'
        exact ⟨[], rest, by simp [h'], by simp⟩
      · rw [List.find?_cons_of_neg _ (by simpa using hq)] at h
        obtain ⟨l1, l2, hsplit, hall⟩ := ih a h
        refine ⟨x :: l1, l2, by simp [hsplit], ?_⟩
        intro y hy
        rcases List.mem_cons.mp hy with rfl | hy'
        · exact Bool.not_eq_true _ ▸ hq
        · exact hall y hy'

theorem map_id_of {α : Type} (F : α → α) :
    ∀ l : List α, (∀ x ∈ l, F x = x) → l.map F = l := by
  intro l
  induction l with
  | nil => intro _; rfl
  | cons x rest ih =>
      intro h
      simp only [List.map_cons]
      rw [h x (List.mem_cons_self x rest), ih (fun y hy => h y (List.mem_cons_of_mem x hy))]

theorem filter_id_of {α : Type} (q : α → Bool) :
    ∀ l : List α, (∀ x ∈ l, q x = true) → l.filter q = l := by
  intro l
  induction l with
  | nil => intro _; rfl
  | cons x rest ih =>
      intro h
      rw [List.filter_cons_of_pos (h x (List.mem_cons_self x rest)),
        ih (fun y hy => h y (List.mem_cons_of_mem x hy))]

theorem sumSizes_map_of (F : String × FileEntry → String × FileEntry)
    (hsz : ∀ p, (F p).2.size = p.2.size) :
    ∀ l, sumSizes (l.map F) = sumSizes l := by
  intro l
  induction l with
  | nil => rfl
  | cons x rest ih => simp only [List.map_cons, sumSizes, hsz, ih]

theorem map_fst_of (F : String × FileEntry → String × FileEntry)
    (hfst : ∀ p, (F p).1 = p.1) :
    ∀ l : List (String × FileEntry), (l.map F).map Prod.fst = l.map Prod.fst := by
  intro l
  induction l with
  | nil => rfl
  | cons x rest ih => simp only [List.map_cons, hfst, ih]

end VirtualFileSystem

namespace VirtualFileSystem

theorem sumSizes_append : ∀ a b : List (String × FileEntry),
    sumSizes (a ++ b) = sumSizes a + sumSizes b := by
  intro a b
  induction a with
  | nil => simp [sumSizes]
  | cons p rest ih => simp [sumSizes, ih]; omega

theorem hasKey_false_not_mem {l : List (String × FileEntry)} {k : String}
    (h : hasKey l k = false) : k ∉ l.map Prod.fst := by
  intro hmem
  obtain ⟨p, hp, hpk⟩ := List.mem_map.mp hmem
  have hany : l.any (fun p => p.1 == k) = true :=
    List.any_eq_true.mpr ⟨p, hp, by simp [hpk]⟩
  rw [hasKey, hany] at h
  cases h

theorem add_file_dup (g : String → Option String) (sn : String) (content : List Nat)
    (vault_path now : String) (st : VfsState)
    (h : hasKey st.files (normalize_path vault_path) = true) :
    add_file g sn content vault_path now st
      = (.error (.vfsError
          ("File already exists in vault: " ++ normalize_path vault_path)), st) := by
  unfold add_file
  simp [h]

theorem add_file_bytes (g : String → Option String) (sn : String) (content : List Nat)
    (vault_path now : String) (st : VfsState) (d : List Nat)
    (h : hasKey st.files (normalize_path vault_path) = false)
    (hb : st.blob = .bytes d) :
    add_file g sn content vault_path now st
      = (.error (.vfsError
          "Failed to add file: 'bytes' object has no attribute 'extend'"), st) := by
  unfold add_file
  simp [h, hb]

theorem add_file_ok (g : String → Option String) (sn : String) (content : List Nat)
    (vault_path now : String) (st : VfsState) (d : List Nat)
    (h : hasKey st.files (normalize_path vault_path) = false)
    (hb : st.blob = .bytearray d) :
    add_file g sn content vault_path now st
      = (.ok (), { files := (st.files ++ [(normalize_path vault_path,
                       { offset := d.length, size := content.length, created := now,
                         modified := now,
                         mime_type := (g sn).getD "application/octet-stream" })]),
                   blob := .bytearray (d ++ content), dirty := true }) := by
  unfold add_file
  simp [h, hb]

theorem remove_file_missing (vault_path : String) (st : VfsState)
    (h : lookupEntry st.files (normalize_path vault_path) = none) :
    remove_file vault_path st
      = (.error (.vfsError
          ("File not found in vault: " ++ normalize_path vault_path)), st) := by
  unfold remove_file
  simp [h]

theorem remove_file_bytes (vault_path : String) (st : VfsState) (e : FileEntry)
    (d : List Nat)
    (h : lookupEntry st.files (normalize_path vault_path) = some e)
    (hb : st.blob = .bytes d) :
    remove_file vault_path st
      = (.error (.vfsError
          "Failed to remove file: 'bytes' object doesn't support item deletion"), st) := by
  unfold remove_file
  simp [h, hb]

theorem remove_file_ok (vault_path : String) (st : VfsState) (e : FileEntry)
    (d : List Nat)
    (h : lookupEntry st.files (normalize_path vault_path) = some e)
    (hb : st.blob = .bytearray d) :
    remove_file vault_path st
      = (.ok (), { files := ((st.files.map (fun p =>
                       if e.offset < p.2.offset then
                         (p.1, { p.2 with offset := p.2.offset - e.size })
                       else p)).filter (fun p => p.1 ≠ normalize_path vault_path)),
                   blob := .bytearray (d.take e.offset ++ d.drop (e.offset + e.size)),
                   dirty := true }) := by
  unfold remove_file
  simp [h, hb]

end VirtualFileSystem

namespace VirtualFileSystem

theorem add_file_preserves_inv (g : String → Option String) (sn : String)
    (content : List Nat) (vault_path now : String) (st : VfsState)
    (h : Inv st) : Inv (add_file g sn content vault_path now st).2 := by
  obtain ⟨hlay, hsum, hnd⟩ := h
  by_cases hk : hasKey st.files (normalize_path vault_path) = true
  · rw [add_file_dup g sn content vault_path now st hk]
    exact ⟨hlay, hsum, hnd⟩
  · replace hk : hasKey st.files (normalize_path vault_path) = false :=
      Bool.not_eq_true _ ▸ hk
    cases hb : st.blob with
    | bytes d =>
        rw [add_file_bytes g sn content vault_path now st d hk hb]
        exact ⟨hlay, hsum, hnd⟩
    | bytearray d =>
        rw [add_file_ok g sn content vault_path now st d hk hb]
        rw [hb] at hsum
        refine ⟨?_, ?_, ?_⟩
        · refine layoutFrom_snoc 0 st.files _ _ hlay ?_
          show d.length = 0 + sumSizes st.files
          simp only [Blob.data] at hsum
          omega
        · simp only [sumSizes_append, sumSizes, Blob.data, List.length_append]
          simp [Blob.data] at hsum
          omega
        · simp only [List.map_append, List.map_cons, List.map_nil]
          rw [List.nodup_append]
          refine ⟨hnd, List.nodup_singleton _, ?_⟩
          intro a ha hb'
          rcases List.mem_singleton.mp hb' with rfl
          exact hasKey_false_not_mem hk ha

theorem remove_file_preserves_inv (vault_path : String) (st : VfsState)
    (h : Inv st) : Inv (remove_file vault_path st).2 := by
  obtain ⟨hlay, hsum, hnd⟩ := h
  cases hf : lookupEntry st.files (normalize_path vault_path) with
  | none =>
      rw [remove_file_missing vault_path st hf]
      exact ⟨hlay, hsum, hnd⟩
  | some e =>
      cases hb : st.blob with
      | bytes d =>
          rw [remove_file_bytes vault_path st e d hf hb]
          exact ⟨hlay, hsum, hnd⟩
      | bytearray d =>
          rw [remove_file_ok vault_path st e d hf hb]
          rw [hb] at hsum
          simp only [Blob.data] at hsum
          -- decompose the dictionary around the removed entry
          unfold lookupEntry at hf
          cases hpr : st.files.find? (fun p => p.1 == normalize_path vault_path) with
          | none => rw [hpr] at hf; cases hf
          | some pr =>
              rw [hpr] at hf
              simp only [Option.map_some'] at hf
              injection hf with hf2
              obtain ⟨prk, pre⟩ := pr
              have hkey : prk = normalize_path vault_path := by
                have := List.find?_some hpr
                simpa using this
              simp only at hf2
              have hf2' := hf2.symm
              subst hf2'
              subst hkey
              obtain ⟨l1, l2, hsplit, hl1⟩ := find?_decomp _ st.files _ hpr
              set vp := normalize_path vault_path with hvp
              -- layout facts from the decomposition
              rw [hsplit, layoutFrom_append] at hlay
              simp only [Bool.and_eq_true] at hlay
              obtain ⟨hlay1, hlay2⟩ := hlay
              simp only [layoutFrom, Bool.and_eq_true, beq_iff_eq] at hlay2
              obtain ⟨he, hlay2'⟩ := hlay2
              rw [hsplit, sumSizes_append] at hsum
              simp only [sumSizes] at hsum
              -- the map touches neither the prefix nor the removed entry
              have hmapl1 : l1.map (fun p =>
                  if e.offset < p.2.offset then
                    (p.1, { p.2 with offset := p.2.offset - e.size })
                  else p) = l1 := by
                apply map_id_of
                intro p hp
                have hbd := (layout_bounds hlay1 p hp).2
                exact if_neg (by omega)
              have hmape : (fun (p : String × FileEntry) =>
                  if e.offset < p.2.offset then
                    (p.1, { p.2 with offset := p.2.offset - e.size })
                  else p) (vp, e) = (vp, e) := if_neg (lt_irrefl e.offset)
              -- the filter keeps the prefix and the mapped suffix, drops the entry
              have hfl1 : l1.filter (fun p => p.1 ≠ vp) = l1 := by
                apply filter_id_of
                intro p hp
                have := hl1 p hp
                simp only [beq_eq_false_iff_ne, ne_eq] at this
                simp [this]
              have hvp_notin_l2 : vp ∉ l2.map Prod.fst := by
                rw [hsplit] at hnd
                simp only [List.map_append, List.map_cons] at hnd
                have := (List.nodup_append.mp hnd).2.1
                exact (List.nodup_cons.mp this).1
              have hfl2 : (l2.map (fun p =>
                  if e.offset < p.2.offset then
                    (p.1, { p.2 with offset := p.2.offset - e.size })
                  else p)).filter (fun p => p.1 ≠ vp)
                  = l2.map (fun p =>
                    if e.offset < p.2.offset then
                      (p.1, { p.2 with offset := p.2.offset - e.size })
                    else p) := by
                apply filter_id_of
                intro p hp
                obtain ⟨q, hq, hqp⟩ := List.mem_map.mp hp
                have hq1 : p.1 = q.1 := by
                  rw [← hqp]
                  by_cases hc : e.offset < q.2.offset
                  · rw [if_pos hc]
                  · rw [if_neg hc]
                have : q.1 ≠ vp := by
                  intro hqvp
                  exact hvp_notin_l2 (List.mem_map.mpr ⟨q, hq, hqvp⟩)
                simp [hq1, this]
              -- assemble the new file list
              have hfiles : (st.files.map (fun p =>
                  if e.offset < p.2.offset then
                    (p.1, { p.2 with offset := p.2.offset - e.size })
                  else p)).filter (fun p => p.1 ≠ vp)
                  = l1 ++ l2.map (fun p =>
                    if e.offset < p.2.offset then
                      (p.1, { p.2 with offset := p.2.offset - e.size })
                    else p) := by
                rw [hsplit]
                simp only [List.map_append, List.map_cons, List.filter_append, hmapl1,
                  hmape, hfl1]
                rw [List.filter_cons_of_neg (by simp), hfl2]
              rw [hfiles]
              refine ⟨?_, ?_, ?_⟩
              · rw [layoutFrom_append]
                simp only [Bool.and_eq_true]
                refine ⟨hlay1, ?_⟩
                have hshift := layout_shift e.offset e.size l2 0
                  (by rw [Nat.add_zero, he]; exact hlay2')
                rw [Nat.add_zero] at hshift
                rw [← he]
                exact hshift
              · simp only [sumSizes_append, Blob.data, List.length_append,
                  List.length_take, List.length_drop]
                rw [sumSizes_map_of]
                · omega
                · intro p
                  by_cases hc : e.offset < p.2.offset
                  · rw [if_pos hc]
                  · rw [if_neg hc]
              · simp only [List.map_append]
                rw [map_fst_of]
                · have hsub : (l1.map Prod.fst ++ l2.map Prod.fst).Sublist
                      (st.files.map Prod.fst) := by
                    rw [hsplit]
                    simp only [List.map_append, List.map_cons]
                    exact List.Sublist.append_left (List.sublist_cons_self _ _) _
                  exact hnd.sublist hsub
                · intro p
                  by_cases hc : e.offset < p.2.offset
                  · rw [if_pos hc]
                  · rw [if_neg hc]

end VirtualFileSystem

namespace VirtualFileSystem

theorem inv_empty : Inv emptyVfs := ⟨rfl, rfl, List.nodup_nil⟩

theorem applyOp_preserves_inv (g : String → Option String) (st : VfsState)
    (op : VfsOp) (h : Inv st) : Inv (applyOp g st op) := by
  cases op with
  | add sn content vp now => exact add_file_preserves_inv g sn content vp now st h
  | remove vp => exact remove_file_preserves_inv vp st h

theorem inv_runOps (g : String → Option String) (ops : List VfsOp) :
    Inv (runOps g emptyVfs ops) := by
  suffices h : ∀ st, Inv st → Inv (runOps g st ops) from h emptyVfs inv_empty
  induction ops with
  | nil => intro st h; exact h
  | cons op rest ih =>
      intro st h
      exact ih (applyOp g st op) (applyOp_preserves_inv g st op h)

theorem layout_pairwiseDisjoint {l : List (String × FileEntry)} {start : Nat}
    (h : layoutFrom start l = true) : pairwiseDisjoint l = true := by
  induction l generalizing start with
  | nil => rfl
  | cons q rest ih =>
      simp only [layoutFrom, Bool.and_eq_true, beq_iff_eq] at h
      obtain ⟨hq, hrest⟩ := h
      simp only [pairwiseDisjoint, Bool.and_eq_true]
      refine ⟨?_, ih hrest⟩
      rw [List.all_eq_true]
      intro p hp
      obtain ⟨h1, -⟩ := layout_bounds hrest p hp
      simp only [disjointEntries, Bool.or_eq_true, decide_eq_true_eq]
      omega

theorem layout_sortedByOffset {l : List (String × FileEntry)} {start : Nat}
    (h : layoutFrom start l = true) : sortedByOffset l = true := by
  induction l generalizing start with
  | nil => rfl
  | cons q rest ih =>
      simp only [layoutFrom, Bool.and_eq_true, beq_iff_eq] at h
      obtain ⟨hq, hrest⟩ := h
      simp only [sortedByOffset, Bool.and_eq_true]
      refine ⟨?_, ih hrest⟩
      rw [List.all_eq_true]
      intro p hp
      obtain ⟨h1, -⟩ := layout_bounds hrest p hp
      simp only [decide_eq_true_eq]
      omega

theorem layout_boundsOk {l : List (String × FileEntry)}
    (h : layoutFrom 0 l = true) {len : Nat} (hlen : sumSizes l = len) :
    boundsOk l len = true := by
  rw [boundsOk, List.all_eq_true]
  intro p hp
  obtain ⟨-, h2⟩ := layout_bounds h p hp
  simp only [decide_eq_true_eq]
  omega

/-- **C6.** Blob layout invariant: after any sequence of `add_file` /
`remove_file` calls starting from an empty vault, the metadata entries' byte
ranges are pairwise non-overlapping; the entry list is sorted by offset
(non-decreasing) and, scanned in that order, the offsets are contiguous from
0 with no gaps and no unreferenced bytes (`layoutFrom 0`, which forces the
ranges to tile the blob exactly); every entry satisfies
`offset + size ≤ blob length`; and `get_total_size()` equals the blob
length. -/
theorem blob_layout_invariant (guessMime : String → Option String)
    (ops : List VfsOp) :
    layoutFrom 0 (runOps guessMime emptyVfs ops).files = true
    ∧ pairwiseDisjoint (runOps guessMime emptyVfs ops).files = true
    ∧ sortedByOffset (runOps guessMime emptyVfs ops).files = true
    ∧ boundsOk (runOps guessMime emptyVfs ops).files
        (runOps guessMime emptyVfs ops).blob.data.length = true
    ∧ get_total_size (runOps guessMime emptyVfs ops)
        = (runOps guessMime emptyVfs ops).blob.data.length := by
  obtain ⟨hlay, hsum, -⟩ := inv_runOps guessMime ops
  exact ⟨hlay, layout_pairwiseDisjoint hlay, layout_sortedByOffset hlay,
    layout_boundsOk hlay hsum,
    by rw [get_total_size, sumSizes_eq_mapSum, hsum]⟩

end VirtualFileSystem

namespace VirtualFileSystem

/-- **C8.** `add_file` on a mutable (`bytearray`) blob: the virtual path is
first normalized to canonical form (backslashes to forward slashes, slashes
stripped at both ends, a single `/` re-prefixed when non-empty — so the result
is empty or starts with `/`); if the normalized path already has an entry the
call raises `VfsError` and changes nothing; otherwise the source bytes are
appended to the end of the blob and an entry is inserted whose offset is the
blob length before the append and whose size is the number of appended bytes,
with both timestamps set to the current clock reading and the MIME type
guessed from the source file name (defaulting to
`application/octet-stream`), and the dirty flag is set. -/
theorem add_file_spec (guessMime : String → Option String) (sourceName : String)
    (content : List Nat) (vault_path now : String) (st : VfsState) (d : List Nat)
    (hblob : st.blob = Blob.bytearray d) :
    ((normalize_path vault_path).toList = []
      ∨ ∃ cs, (normalize_path vault_path).toList = '/' :: cs)
    ∧ (hasKey st.files (normalize_path vault_path) = true →
        add_file guessMime sourceName content vault_path now st
          = (.error (.vfsError ("File already exists in vault: "
              ++ normalize_path vault_path)), st))
    ∧ (hasKey st.files (normalize_path vault_path) = false →
        add_file guessMime sourceName content vault_path now st
          = (.ok (), { files := (st.files ++ [(normalize_path vault_path,
                           { offset := d.length, size := content.length,
                             created := now, modified := now,
                             mime_type := (guessMime sourceName).getD
                               "application/octet-stream" })]),
                       blob := .bytearray (d ++ content), dirty := true })) := by
  refine ⟨?_,
    fun hk => add_file_dup guessMime sourceName content vault_path now st hk,
    fun hk => add_file_ok guessMime sourceName content vault_path now st d hk hblob⟩
  have hnp : normalize_path vault_path
      = (if (stripSlashes (vault_path.toList.map
            (fun c => if c = '\\' then '/' else c))).isEmpty = true then ""
         else String.mk ('/' :: stripSlashes (vault_path.toList.map
            (fun c => if c = '\\' then '/' else c)))) := rfl
  rw [hnp]
  split
  · left
    rfl
  · right
    exact ⟨_, rfl⟩

/-- Witness for C8: adding 2 bytes as `docs\r.txt` to the empty vault
normalizes the path to `/docs/r.txt` and appends at offset 0; adding to the
same path again raises `VfsError` and leaves the state unchanged. -/
theorem add_file_spec_witness :
    add_file (fun _ => none) "r.txt" [1, 2] "docs\\r.txt" "t" emptyVfs
      = (.ok (), stC8)
    ∧ add_file (fun _ => none) "r.txt" [3] "/docs/r.txt" "t" stC8
      = (.error (.vfsError "File already exists in vault: /docs/r.txt"), stC8) := by
  constructor
  · exact (add_file_spec (fun _ => none) "r.txt" [1, 2] "docs\\r.txt" "t"
      emptyVfs [] rfl).2.2 (by decide)
  · exact (add_file_spec (fun _ => none) "r.txt" [3] "/docs/r.txt" "t"
      stC8 [1, 2] rfl).2.1 (by decide)

/-- **C10.** After a successful `VirtualFileSystem.load`, the blob field holds
an immutable `bytes` value (because `VaultContainer.load` returns the `bytes`
slice built by `_deserialize_payload`), so every subsequent `add_file` or
`remove_file` call on that VFS raises `VfsError` — either at the
duplicate/missing-path check or when the blob operation
(`extend` / `del`) fails on `bytes` — and leaves the metadata map, the blob
and the dirty flag unchanged. -/
theorem mutations_after_load_fail (files : List (String × FileEntry))
    (data : List Nat) (st : VfsState) (guessMime : String → Option String)
    (sourceName : String) (content : List Nat) (addPath remPath now : String) :
    (VirtualFileSystem.load (.ok (files, data)) st).1 = .ok ()
    ∧ (VirtualFileSystem.load (.ok (files, data)) st).2.blob = Blob.bytes data
    ∧ isVfsErrorR (add_file guessMime sourceName content addPath now
        (VirtualFileSystem.load (.ok (files, data)) st).2).1 = true
    ∧ (add_file guessMime sourceName content addPath now
        (VirtualFileSystem.load (.ok (files, data)) st).2).2
      = (VirtualFileSystem.load (.ok (files, data)) st).2
    ∧ isVfsErrorR (remove_file remPath
        (VirtualFileSystem.load (.ok (files, data)) st).2).1 = true
    ∧ (remove_file remPath (VirtualFileSystem.load (.ok (files, data)) st).2).2
      = (VirtualFileSystem.load (.ok (files, data)) st).2 := by
  have hst' : (VirtualFileSystem.load (.ok (files, data)) st).2
      = { files := files, blob := Blob.bytes data, dirty := false } := rfl
  rw [hst']
  refine ⟨rfl, rfl, ?_, ?_, ?_, ?_⟩
  · by_cases hk : hasKey files (normalize_path addPath) = true
    · rw [add_file_dup _ _ _ _ _ _ hk]
      rfl
    · rw [add_file_bytes _ _ _ _ _ _ data (Bool.not_eq_true _ ▸ hk) rfl]
      rfl
  · by_cases hk : hasKey files (normalize_path addPath) = true
    · rw [add_file_dup _ _ _ _ _ _ hk]
    · rw [add_file_bytes _ _ _ _ _ _ data (Bool.not_eq_true _ ▸ hk) rfl]
  · cases hf : lookupEntry files (normalize_path remPath) with
    | none =>
        rw [remove_file_missing _ _ hf]
        rfl
    | some e =>
        rw [remove_file_bytes _ _ e data hf rfl]
        rfl
  · cases hf : lookupEntry files (normalize_path remPath) with
    | none => rw [remove_file_missing _ _ hf]
    | some e => rw [remove_file_bytes _ _ e data hf rfl]

end VirtualFileSystem
